import Mathlib

/-!
Shallow embedding of the BVH ray-tracing engine of
`yt/utilities/lib/bounding_volume_hierarchy.pyx`.

Machine floating-point numbers (`np.float64_t`) are modelled by exact
rationals `ℚ`; the code's comparisons and arithmetic are translated
verbatim.  The constant `INF` (used only as the initial value of a ray's
`t_far` and of the slab-test accumulators) is handled as follows: the
driver's `t_far = INF` initialisation becomes an explicit parameter, and
the slab-test loop, which runs exactly three times starting from
`tmin = -INF, tmax = +INF`, is unrolled, with the initial infinities
absorbed by the first `fmax`/`fmin` (IEEE `fmax(-inf, x) = x`,
`fmin(+inf, x) = x` for non-NaN `x`).

The triangle array that the builder mutates in place is modelled as a
`List Triangle` threaded through the build functions; a swap of two array
slots becomes two `List.set` operations.
-/

/-- A 3-vector of rationals, modelling a `np.float64_t[3]` buffer. -/
structure Vec3 where
  x : ℚ
  y : ℚ
  z : ℚ
deriving DecidableEq, Repr

/-- Indexing `v[i]` for `i ∈ {0,1,2}` as in the C arrays. -/
def Vec3.nth (v : Vec3) : ℕ → ℚ
  | 0 => v.x
  | 1 => v.y
  | 2 => v.z
  | _ => 0

/-- `subtract` from `vec3_ops` (not under `src/`): componentwise difference,
the standard operation the name denotes. -/
def vsub (a b : Vec3) : Vec3 := ⟨a.x - b.x, a.y - b.y, a.z - b.z⟩

/-- `dot` from `vec3_ops` (not under `src/`): the standard inner product. -/
def vdot (a b : Vec3) : ℚ := a.x * b.x + a.y * b.y + a.z * b.z

/-- `cross` from `vec3_ops` (not under `src/`): the standard cross product. -/
def vcross (a b : Vec3) : Vec3 :=
  ⟨a.y * b.z - a.z * b.y, a.z * b.x - a.x * b.z, a.x * b.y - a.y * b.x⟩

/-- `BBox`: axis-aligned bounding box, `left_edge[3]` / `right_edge[3]`. -/
structure BBox where
  left_edge : Vec3
  right_edge : Vec3
deriving DecidableEq, Repr

/-- `Triangle`: three vertices, precomputed centroid and bounding box, and
the id of the owning mesh element. -/
structure Triangle where
  p0 : Vec3
  p1 : Vec3
  p2 : Vec3
  centroid : Vec3
  bbox : BBox
  elem_id : ℤ
deriving DecidableEq, Repr

instance : Inhabited Vec3 := ⟨⟨0, 0, 0⟩⟩

instance : Inhabited BBox := ⟨⟨default, default⟩⟩

instance : Inhabited Triangle := ⟨⟨default, default, default, default, default, 0⟩⟩

/-- `Ray`: origin, direction, reciprocal direction, parametric interval,
and the in-place result slot. -/
structure Ray where
  origin : Vec3
  direction : Vec3
  inv_dir : Vec3
  t_near : ℚ
  t_far : ℚ
  data_val : ℚ
  elem_id : ℤ
  near_boundary : ℤ
deriving DecidableEq, Repr

/-- `DETERMINANT_EPS = 1.0e-10`. -/
def DETERMINANT_EPS : ℚ := 1 / 10000000000

/-- `LEAF_SIZE = 16`. -/
def LEAF_SIZE : ℕ := 16

/-- Möller–Trumbore edge vector `e1 = p1 - p0`. -/
def mtE1 (tri : Triangle) : Vec3 := vsub tri.p1 tri.p0

/-- Möller–Trumbore edge vector `e2 = p2 - p0`. -/
def mtE2 (tri : Triangle) : Vec3 := vsub tri.p2 tri.p0

/-- `P = cross(ray.direction, e2)`. -/
def mtP (ray : Ray) (tri : Triangle) : Vec3 := vcross ray.direction (mtE2 tri)

/-- The Möller–Trumbore determinant `det = dot(e1, P)`. -/
def mtDet (ray : Ray) (tri : Triangle) : ℚ := vdot (mtE1 tri) (mtP ray tri)

/-- `T = ray.origin - p0`. -/
def mtT (ray : Ray) (tri : Triangle) : Vec3 := vsub ray.origin tri.p0

/-- Barycentric coordinate `u = dot(T, P) / det`. -/
def mtU (ray : Ray) (tri : Triangle) : ℚ :=
  vdot (mtT ray tri) (mtP ray tri) * (1 / mtDet ray tri)

/-- `Q = cross(T, e1)`. -/
def mtQ (ray : Ray) (tri : Triangle) : Vec3 := vcross (mtT ray tri) (mtE1 tri)

/-- Barycentric coordinate `v = dot(direction, Q) / det`. -/
def mtV (ray : Ray) (tri : Triangle) : ℚ :=
  vdot ray.direction (mtQ ray tri) * (1 / mtDet ray tri)

/-- Hit distance `t = dot(e2, Q) / det`. -/
def mtDist (ray : Ray) (tri : Triangle) : ℚ :=
  vdot (mtE2 tri) (mtQ ray tri) * (1 / mtDet ray tri)

/-- `ray_triangle_intersect` (lines 42–81): returns the hit flag and the
(possibly updated) ray. -/
def ray_triangle_intersect (ray : Ray) (tri : Triangle) : Bool × Ray :=
  let det := mtDet ray tri
  if det > -DETERMINANT_EPS ∧ det < DETERMINANT_EPS then (false, ray)
  else
    let u := mtU ray tri
    if u < 0 ∨ u > 1 then (false, ray)
    else
      let v := mtV ray tri
      if v < 0 ∨ u + v > 1 then (false, ray)
      else
        let t := mtDist ray tri
        if t > DETERMINANT_EPS ∧ t < ray.t_far then
          (true, { ray with t_far := t, elem_id := tri.elem_id })
        else (false, ray)

/-- Per-axis slab distance `t1 = (left_edge[i] - origin[i]) * inv_dir[i]`. -/
def slabT1 (ray : Ray) (bbox : BBox) (i : ℕ) : ℚ :=
  (bbox.left_edge.nth i - ray.origin.nth i) * ray.inv_dir.nth i

/-- Per-axis slab distance `t2 = (right_edge[i] - origin[i]) * inv_dir[i]`. -/
def slabT2 (ray : Ray) (bbox : BBox) (i : ℕ) : ℚ :=
  (bbox.right_edge.nth i - ray.origin.nth i) * ray.inv_dir.nth i

/-- The running `tmin` after the three loop iterations: the maximum of the
three per-axis entry distances (the initial `-INF` is absorbed). -/
def slabTmin (ray : Ray) (bbox : BBox) : ℚ :=
  max (max (min (slabT1 ray bbox 0) (slabT2 ray bbox 0))
           (min (slabT1 ray bbox 1) (slabT2 ray bbox 1)))
      (min (slabT1 ray bbox 2) (slabT2 ray bbox 2))

/-- The running `tmax` after the three loop iterations: the minimum of the
three per-axis exit distances (the initial `+INF` is absorbed). -/
def slabTmax (ray : Ray) (bbox : BBox) : ℚ :=
  min (min (max (slabT1 ray bbox 0) (slabT2 ray bbox 0))
           (max (slabT1 ray bbox 1) (slabT2 ray bbox 1)))
      (max (slabT1 ray bbox 2) (slabT2 ray bbox 2))

/-- `ray_bbox_intersect` (lines 87–101): slab test,
returns `tmax >= fmax(tmin, 0.0)`. -/
def ray_bbox_intersect (ray : Ray) (bbox : BBox) : Bool :=
  decide (slabTmax ray bbox ≥ max (slabTmin ray bbox) 0)

example :
    ray_triangle_intersect
      ⟨⟨0, 0, 0⟩, ⟨0, 0, 1⟩, ⟨0, 0, 1⟩, 0, 1000, 0, -1, 0⟩
      ⟨⟨0, 0, 1⟩, ⟨4, 0, 1⟩, ⟨0, 4, 1⟩, ⟨4/3, 4/3, 1⟩, default, 7⟩
    = (true, ⟨⟨0, 0, 0⟩, ⟨0, 0, 1⟩, ⟨0, 0, 1⟩, 0, 1, 0, 7, 0⟩) := by
  norm_num [ray_triangle_intersect, mtDet, mtE1, mtE2, mtP, mtT, mtU, mtQ, mtV,
    mtDist, vsub, vdot, vcross, DETERMINANT_EPS]

/-- Swap the array slots `i` and `j`, as the Cython tuple assignment
`triangles[mid], triangles[begin] = triangles[begin], triangles[mid]`. -/
def listSwap (l : List Triangle) (i j : ℕ) : List Triangle :=
  (l.set i (l.getD j default)).set j (l.getD i default)

/-- The `while begin != end` loop of `BVH._partition` (lines 205–213).
All call sites have `begin <= end` and the loop increments `begin`,
so the guard is equivalently `begin < end`. -/
def partitionLoop (tris : List Triangle) (ax : ℕ) (split : ℚ)
    (mid b e : ℕ) : List Triangle × ℕ :=
  if _h : b < e then
    if (tris.getD mid default).centroid.nth ax > split then
      partitionLoop tris ax split (mid + 1) (b + 1) e
    else if (tris.getD b default).centroid.nth ax > split then
      partitionLoop (listSwap tris mid b) ax split (mid + 1) (b + 1) e
    else
      partitionLoop tris ax split mid (b + 1) e
  else (tris, mid)
termination_by e - b

/-- `BVH._partition` (lines 199–214): partitions `[begin, end)` of the
triangle array, returning the reordered array and the boundary `mid`. -/
def bvhPartition (tris : List Triangle) (b e : ℕ) (ax : ℕ) (split : ℚ) :
    List Triangle × ℕ :=
  partitionLoop tris ax split b b e

theorem partitionLoop_length (tris : List Triangle) (ax : ℕ) (split : ℚ)
    (mid b e : ℕ) :
    ((partitionLoop tris ax split mid b e).1).length = tris.length := by
  induction tris, ax, split, mid, b, e using partitionLoop.induct with
  | case1 tris ax split mid b e hlt hc ih =>
    rw [partitionLoop]; simp only [dif_pos hlt, if_pos hc]; exact ih
  | case2 tris ax split mid b e hlt hc1 hc2 ih =>
    rw [partitionLoop]; simp only [dif_pos hlt, if_neg hc1, if_pos hc2]
    rw [ih]; simp [listSwap]
  | case3 tris ax split mid b e hlt hc1 hc2 ih =>
    rw [partitionLoop]; simp only [dif_pos hlt, if_neg hc1, if_neg hc2]; exact ih
  | case4 tris ax split mid b e hlt =>
    rw [partitionLoop]; simp only [dif_neg hlt]

theorem partitionLoop_mid_bounds (tris : List Triangle) (ax : ℕ) (split : ℚ)
    (mid b e : ℕ) (h1 : mid ≤ b) (h2 : b ≤ e) :
    mid ≤ (partitionLoop tris ax split mid b e).2 ∧
      (partitionLoop tris ax split mid b e).2 ≤ e := by
  revert h1 h2
  induction tris, ax, split, mid, b, e using partitionLoop.induct with
  | case1 tris ax split mid b e hlt hc ih =>
    intro h1 h2
    rw [partitionLoop]; simp only [dif_pos hlt, if_pos hc]
    have := ih (by omega) (by omega)
    omega
  | case2 tris ax split mid b e hlt hc1 hc2 ih =>
    intro h1 h2
    rw [partitionLoop]; simp only [dif_pos hlt, if_neg hc1, if_pos hc2]
    have := ih (by omega) (by omega)
    omega
  | case3 tris ax split mid b e hlt hc1 hc2 ih =>
    intro h1 h2
    rw [partitionLoop]; simp only [dif_pos hlt, if_neg hc1, if_neg hc2]
    have := ih (by omega) (by omega)
    omega
  | case4 tris ax split mid b e hlt =>
    intro h1 h2
    rw [partitionLoop]; simp only [dif_neg hlt]
    omega

theorem bvhPartition_length (tris : List Triangle) (b e ax : ℕ) (split : ℚ) :
    ((bvhPartition tris b e ax split).1).length = tris.length :=
  partitionLoop_length tris ax split b b e

theorem bvhPartition_mid_bounds (tris : List Triangle) (b e ax : ℕ) (split : ℚ)
    (h : b ≤ e) :
    b ≤ (bvhPartition tris b e ax split).2 ∧
      (bvhPartition tris b e ax split).2 ≤ e :=
  partitionLoop_mid_bounds tris ax split b b e le_rfl h

/-- Componentwise merge of two boxes, the body of the scan loop in
`BVH._get_node_bbox` (lines 223–228). -/
def bboxMerge (box other : BBox) : BBox :=
  ⟨⟨min box.left_edge.x other.left_edge.x,
    min box.left_edge.y other.left_edge.y,
    min box.left_edge.z other.left_edge.z⟩,
   ⟨max box.right_edge.x other.right_edge.x,
    max box.right_edge.y other.right_edge.y,
    max box.right_edge.z other.right_edge.z⟩⟩

/-- `BVH._get_node_bbox` (lines 219–229): starts from the bbox of the
triangle at index `begin` (an unconditional read) and folds in the boxes
of indices `begin+1 .. end-1`. -/
def getNodeBbox (tris : List Triangle) (b e : ℕ) : BBox :=
  (List.range' (b + 1) (e - (b + 1))).foldl
    (fun box i => bboxMerge box (tris.getD i default).bbox)
    (tris.getD b default).bbox

/-- `BVH._get_node_bbox` with the implicit memory-safety side condition
made explicit: `none` when some accessed index `begin, …, end-1` is out of
bounds of the triangle array (the code compiles with `boundscheck(False)`,
so such an access is undefined behaviour, not an exception). -/
def getNodeBboxChecked (tris : List Triangle) (b e : ℕ) : Option BBox :=
  if b < tris.length ∧ e ≤ tris.length then some (getNodeBbox tris b e)
  else none

/-- The split-axis choice of `BVH._recursive_build` (lines 295–301),
verbatim: `d` is set from axis 0 and never updated, and the two `if`s use
strict `>` against that fixed `d`. -/
def longestAxis (bbox : BBox) : ℕ :=
  let d := |bbox.right_edge.nth 0 - bbox.left_edge.nth 0|
  let ax1 : ℕ := if |bbox.right_edge.nth 1 - bbox.left_edge.nth 1| > d then 1 else 0
  if |bbox.right_edge.nth 2 - bbox.left_edge.nth 2| > d then 2 else ax1

/-- The split value of `BVH._recursive_build` (lines 304–305):
`0.5*(right_edge[ax] + left_edge[ax])`. -/
def splitValueOf (bbox : BBox) (ax : ℕ) : ℚ :=
  (1 / 2) * (bbox.right_edge.nth ax + bbox.left_edge.nth ax)

/-- Lines 307–311 of `BVH._recursive_build`: partition the range at the
midpoint of the longest axis, then force `mid = begin + (end-begin)/2`
when either side came back empty. -/
def partitionStep (tris : List Triangle) (b e : ℕ) : List Triangle × ℕ :=
  let bbox := getNodeBbox tris b e
  let ax := longestAxis bbox
  let pr := bvhPartition tris b e ax (splitValueOf bbox ax)
  if pr.2 = b ∨ pr.2 = e then (pr.1, b + (e - b) / 2) else pr

theorem partitionStep_length (tris : List Triangle) (b e : ℕ) :
    ((partitionStep tris b e).1).length = tris.length := by
  simp only [partitionStep]
  split
  · exact bvhPartition_length ..
  · exact bvhPartition_length ..

theorem partitionStep_mid_bounds (tris : List Triangle) (b e : ℕ)
    (h : LEAF_SIZE < e - b) :
    b < (partitionStep tris b e).2 ∧ (partitionStep tris b e).2 < e := by
  have hb : b ≤ e := by unfold LEAF_SIZE at h; omega
  simp only [partitionStep]
  have hpr := bvhPartition_mid_bounds tris b e
    (longestAxis (getNodeBbox tris b e))
    (splitValueOf (getNodeBbox tris b e) (longestAxis (getNodeBbox tris b e))) hb
  unfold LEAF_SIZE at h
  split
  · dsimp only
    omega
  · rename_i hne
    simp only [not_or] at hne
    omega

/-- `BVHNode` (declared in the `.pxd`): `begin`/`end` half-open range into
the triangle array, the node's bounding box, and — exactly when the node is
internal — two children.  The leaf/internal distinction is which the code
makes by re-testing `end - begin <= LEAF_SIZE`. -/
inductive BVHNode where
  | leaf (nbegin nend : ℕ) (bbox : BBox)
  | node (nbegin nend : ℕ) (bbox : BBox) (left right : BVHNode)
deriving DecidableEq, Repr

/-- The node's `begin` field. -/
def BVHNode.rangeBegin : BVHNode → ℕ
  | .leaf b _ _ => b
  | .node b _ _ _ _ => b

/-- The node's `end` field. -/
def BVHNode.rangeEnd : BVHNode → ℕ
  | .leaf _ e _ => e
  | .node _ e _ _ _ => e

/-- `BVH._recursive_build` (lines 280–317): returns the (re-ordered)
triangle array together with the subtree built over `[begin, end)`. -/
def recursiveBuild (tris : List Triangle) (b e : ℕ) : List Triangle × BVHNode :=
  if _h : e - b ≤ LEAF_SIZE then (tris, .leaf b e (getNodeBbox tris b e))
  else
    let ps := partitionStep tris b e
    let lres := recursiveBuild ps.1 b ps.2
    let rres := recursiveBuild lres.1 ps.2 e
    (rres.1, .node b e (getNodeBbox tris b e) lres.2 rres.2)
termination_by e - b
decreasing_by
  · have := partitionStep_mid_bounds tris b e (by unfold LEAF_SIZE at *; omega)
    unfold LEAF_SIZE at _h
    omega
  · have := partitionStep_mid_bounds tris b e (by unfold LEAF_SIZE at *; omega)
    unfold LEAF_SIZE at _h
    omega

/-- The node's bounding box field. -/
def BVHNode.bboxOf : BVHNode → BBox
  | .leaf _ _ bb => bb
  | .node _ _ bb _ _ => bb

/-- The leaf scan of `BVH._recursive_intersect` (lines 267–271): test every
triangle of `[begin, end)` against the ray, updating it in place. -/
def leafScan (tris : List Triangle) (b e : ℕ) (ray : Ray) : Ray :=
  (List.range' b (e - b)).foldl
    (fun r i => (ray_triangle_intersect r (tris.getD i default)).2) ray

/-- `BVH._recursive_intersect` (lines 258–275).  The source decides
leaf-ness by re-testing `end - begin <= LEAF_SIZE`; in this embedding the
built tree carries the distinction structurally (the builder creates a
leaf struct exactly when the size test holds, see `recursiveBuild`), and
an internal node re-tests the size exactly as the source does. -/
def recursiveIntersect (tris : List Triangle) : BVHNode → Ray → Ray
  | .leaf b e bb, ray =>
    if ray_bbox_intersect ray bb = false then ray
    else leafScan tris b e ray
  | .node b e bb l r, ray =>
    if ray_bbox_intersect ray bb = false then ray
    else if e - b ≤ LEAF_SIZE then leafScan tris b e ray
    else recursiveIntersect tris r (recursiveIntersect tris l ray)

/-- `BVH.intersect` (lines 234–253).  The element sampler is an external
collaborator (`element_mappings`, not under `src/`); it is passed in as an
abstract function of the hit element's id and the reconstructed hit point
(the code hands it the vertex and field buffers of `ray.elem_id` plus the
position, which that pair of arguments determines). -/
def bvhIntersect (tris : List Triangle) (root : BVHNode)
    (sampler : ℤ → Vec3 → ℚ) (ray : Ray) : Ray :=
  let r := recursiveIntersect tris root ray
  if r.elem_id < 0 then r
  else
    let position : Vec3 :=
      ⟨r.origin.x + r.t_far * r.direction.x,
       r.origin.y + r.t_far * r.direction.y,
       r.origin.z + r.t_far * r.direction.z⟩
    { r with data_val := sampler r.elem_id position, near_boundary := -1 }

/-- The per-ray initialisation done by `cast_rays` (lines 336–346):
`inv_dir = 1/direction` componentwise, `t_far = INF` (the parameter
`inf`), `t_near = 0`, `data_val = 0`, `elem_id = -1`.  `near_boundary`
is never initialised by the driver (it comes from `malloc`); it is set
to 0 here and no claim depends on it. -/
def initRay (origin direction : Vec3) (inf : ℚ) : Ray :=
  { origin := origin, direction := direction,
    inv_dir := ⟨1 / direction.x, 1 / direction.y, 1 / direction.z⟩,
    t_near := 0, t_far := inf, data_val := 0, elem_id := -1,
    near_boundary := 0 }

/-- One ray's pass through `cast_rays` (lines 340–348): initialise, run
`bvh.intersect`, write `ray.data_val` to the output slot. -/
def castRay (tris : List Triangle) (root : BVHNode)
    (sampler : ℤ → Vec3 → ℚ) (origin direction : Vec3) (inf : ℚ) : ℚ :=
  (bvhIntersect tris root sampler (initRay origin direction inf)).data_val

theorem ray_triangle_intersect_data_val (ray : Ray) (tri : Triangle) :
    ((ray_triangle_intersect ray tri).2).data_val = ray.data_val := by
  unfold ray_triangle_intersect
  dsimp only
  split_ifs <;> rfl

theorem leafScan_data_val (tris : List Triangle) (b e : ℕ) (ray : Ray) :
    (leafScan tris b e ray).data_val = ray.data_val := by
  unfold leafScan
  generalize List.range' b (e - b) = idxs
  induction idxs generalizing ray with
  | nil => rfl
  | cons i rest ih =>
    rw [List.foldl_cons, ih]
    exact ray_triangle_intersect_data_val ..

theorem recursiveIntersect_data_val (tris : List Triangle) (node : BVHNode)
    (ray : Ray) :
    (recursiveIntersect tris node ray).data_val = ray.data_val := by
  induction node generalizing ray with
  | leaf b e bb =>
    unfold recursiveIntersect
    split_ifs
    · rfl
    · exact leafScan_data_val ..
  | node b e bb l r ihl ihr =>
    unfold recursiveIntersect
    split_ifs
    · rfl
    · exact leafScan_data_val ..
    · rw [ihr, ihl]

theorem recursiveBuild_rangeBegin (tris : List Triangle) (b e : ℕ) :
    ((recursiveBuild tris b e).2).rangeBegin = b := by
  rw [recursiveBuild]
  split
  · rfl
  · rfl

theorem recursiveBuild_rangeEnd (tris : List Triangle) (b e : ℕ) :
    ((recursiveBuild tris b e).2).rangeEnd = e := by
  rw [recursiveBuild]
  split
  · rfl
  · rfl

/-- Every internal node's two children exactly partition its own range:
`left.begin == node.begin`, `left.end == right.begin`, `right.end ==
node.end`, at every node of the tree. -/
def wellPartitionedRanges : BVHNode → Bool
  | .leaf _ _ _ => true
  | .node b e _ l r =>
    (l.rangeBegin == b) && (l.rangeEnd == r.rangeBegin) && (r.rangeEnd == e)
      && wellPartitionedRanges l && wellPartitionedRanges r

theorem recursiveBuild_wellPartitioned (tris : List Triangle) (b e : ℕ) :
    wellPartitionedRanges ((recursiveBuild tris b e).2) = true := by
  induction tris, b, e using recursiveBuild.induct with
  | case1 tris b e h =>
    rw [recursiveBuild]
    simp [h, wellPartitionedRanges]
  | case2 tris b e h ps lres ihlet ihl ihr =>
    rw [recursiveBuild]
    simp only [dif_neg h]
    simp [wellPartitionedRanges, recursiveBuild_rangeBegin,
      recursiveBuild_rangeEnd]
    exact ⟨ihl, ihr⟩

/-- A node is a leaf exactly when `end - begin <= LEAF_SIZE`, at every
node of the tree. -/
def leafSizeInv : BVHNode → Bool
  | .leaf b e _ => decide (e - b ≤ LEAF_SIZE)
  | .node b e _ l r =>
    decide (LEAF_SIZE < e - b) && leafSizeInv l && leafSizeInv r

theorem recursiveBuild_leafSizeInv (tris : List Triangle) (b e : ℕ) :
    leafSizeInv ((recursiveBuild tris b e).2) = true := by
  induction tris, b, e using recursiveBuild.induct with
  | case1 tris b e h =>
    rw [recursiveBuild]
    simp [h, leafSizeInv]
  | case2 tris b e h ps lres ihlet ihl ihr =>
    rw [recursiveBuild]
    simp only [dif_neg h]
    simp only [not_le] at h
    simp only [leafSizeInv, Bool.and_eq_true, decide_eq_true_eq]
    exact ⟨⟨h, ihl⟩, ihr⟩

/-- All `(begin, end)` ranges appearing in a tree, the node's own first. -/
def treeRanges : BVHNode → List (ℕ × ℕ)
  | .leaf b e _ => [(b, e)]
  | .node b e _ l r => (b, e) :: (treeRanges l ++ treeRanges r)

theorem recursiveBuild_ranges_bounds (tris : List Triangle) (b e : ℕ)
    (hbe : b < e) :
    ∀ p ∈ treeRanges ((recursiveBuild tris b e).2),
      b ≤ p.1 ∧ p.1 < p.2 ∧ p.2 ≤ e := by
  revert hbe
  induction tris, b, e using recursiveBuild.induct with
  | case1 tris b e h =>
    intro hbe p hp
    rw [recursiveBuild] at hp
    simp only [dif_pos h] at hp
    simp only [treeRanges, List.mem_singleton] at hp
    subst hp
    exact ⟨le_rfl, hbe, le_rfl⟩
  | case2 tris b e h ps lres ihlet ihl ihr =>
    intro hbe p hp
    have hmid := partitionStep_mid_bounds tris b e (by unfold LEAF_SIZE at *; omega)
    rw [recursiveBuild] at hp
    simp only [dif_neg h] at hp
    simp only [treeRanges, List.mem_cons, List.mem_append] at hp
    rcases hp with hp | hp | hp
    · subst hp
      exact ⟨le_rfl, hbe, le_rfl⟩
    · have := ihl hmid.1 p hp
      omega
    · have hps2 : ps.2 = (partitionStep tris b e).2 := rfl
      have := ihr hmid.2 p hp
      omega

/-- Modelled from the spec: `HEX_NT`, the triangles-per-element count for
8-node hexahedra, lives in `mesh_construction.h`, which is not under
`src/`; the spec's test scenario fixes it ("a single unit cube hexahedron
split into 12 triangles"). -/
def HEX_NT : ℕ := 12

/-- Modelled from the spec: `TETRA_NT` from `mesh_construction.h` (not
under `src/`): a 4-node tetrahedron's fixed decomposition into its 4
triangular faces. -/
def TETRA_NT : ℕ := 4

/-- Modelled from the spec: `WEDGE_NT` from `mesh_construction.h` (not
under `src/`): a 6-node wedge's fixed decomposition (2 triangular faces
plus 3 quadrilateral faces split in two). -/
def WEDGE_NT : ℕ := 8

/-- The three per-topology element samplers dispatched by
`BVH.__cinit__` (lines 15–17, 133–141). -/
inductive ElementSampler where
  | Q1Sampler
  | P1Sampler
  | W1Sampler
deriving DecidableEq, Repr

/-- The topology dispatch of `BVH.__cinit__` (lines 130–141), verbatim:
an `if/elif/elif` chain with no `else` branch and no `raise`.  For an
unsupported vertex count the `cdef` field `num_tri_per_elem` keeps its
zero-initialised value. -/
def cinitNumTriPerElem (num_verts_per_elem : ℕ) : ℕ :=
  if num_verts_per_elem = 8 then HEX_NT
  else if num_verts_per_elem = 6 then WEDGE_NT
  else if num_verts_per_elem = 4 then TETRA_NT
  else 0

/-- The sampler selected by the same dispatch; `none` models the `cdef`
field `sampler` keeping its `None` initial value when no branch fires. -/
def cinitSampler (num_verts_per_elem : ℕ) : Option ElementSampler :=
  if num_verts_per_elem = 8 then some .Q1Sampler
  else if num_verts_per_elem = 6 then some .W1Sampler
  else if num_verts_per_elem = 4 then some .P1Sampler
  else none

/-- A triangle with the given `x`-centroid, used in concrete evaluations
(the other fields play no role in the partition). -/
def triCx (c : ℚ) : Triangle :=
  { p0 := default, p1 := default, p2 := default, centroid := ⟨c, 0, 0⟩,
    bbox := default, elem_id := 0 }

/-- C1: `ray_triangle_intersect` reports a hit and updates the ray if and
only if the determinant's absolute value is at least `DETERMINANT_EPS`,
the barycentric coordinates satisfy `u ∈ [0,1]`, `v ∈ [0,1]`, `u + v ≤ 1`,
and the hit distance `t` lies strictly between the epsilon and the ray's
current `t_far`; on a hit it sets `t_far` to `t` and `elem_id` to the
triangle's element id, and on a miss it leaves the ray unchanged. -/
theorem claim_C1_ray_triangle_hit_iff (ray : Ray) (tri : Triangle) :
    ((ray_triangle_intersect ray tri).1 = true ↔
      (DETERMINANT_EPS ≤ |mtDet ray tri| ∧
       0 ≤ mtU ray tri ∧ mtU ray tri ≤ 1 ∧
       0 ≤ mtV ray tri ∧ mtV ray tri ≤ 1 ∧
       mtU ray tri + mtV ray tri ≤ 1 ∧
       DETERMINANT_EPS < mtDist ray tri ∧ mtDist ray tri < ray.t_far)) ∧
    ((ray_triangle_intersect ray tri).1 = true →
      (ray_triangle_intersect ray tri).2 =
        { ray with t_far := mtDist ray tri, elem_id := tri.elem_id }) ∧
    ((ray_triangle_intersect ray tri).1 = false →
      (ray_triangle_intersect ray tri).2 = ray) := by
  unfold ray_triangle_intersect
  dsimp only
  split_ifs with h1 h2 h3 h4
  · -- near-zero determinant: miss
    refine ⟨⟨fun hc => by simp at hc, fun hc => ?_⟩,
      fun hc => by simp at hc, fun _ => rfl⟩
    exfalso
    have habs : |mtDet ray tri| < DETERMINANT_EPS :=
      abs_lt.mpr ⟨by linarith [h1.1], h1.2⟩
    linarith [hc.1]
  · -- u out of [0, 1]: miss
    refine ⟨⟨fun hc => by simp at hc, fun hc => ?_⟩,
      fun hc => by simp at hc, fun _ => rfl⟩
    exfalso
    rcases h2 with h2 | h2
    · linarith [hc.2.1]
    · linarith [hc.2.2.1]
  · -- v < 0 or u + v > 1: miss
    refine ⟨⟨fun hc => by simp at hc, fun hc => ?_⟩,
      fun hc => by simp at hc, fun _ => rfl⟩
    exfalso
    rcases h3 with h3 | h3
    · linarith [hc.2.2.2.1]
    · linarith [hc.2.2.2.2.2.1]
  · -- hit
    push_neg at h1 h2 h3
    refine ⟨⟨fun _ => ?_, fun _ => rfl⟩, fun _ => rfl, fun hc => by simp at hc⟩
    have hdet : DETERMINANT_EPS ≤ |mtDet ray tri| := by
      rcases le_or_lt DETERMINANT_EPS (mtDet ray tri) with hd | hd
      · exact le_trans hd (le_abs_self _)
      · have hle : mtDet ray tri ≤ -DETERMINANT_EPS := by
          by_contra hgt
          push_neg at hgt
          exact absurd (h1 hgt) (not_le.mpr hd)
        calc DETERMINANT_EPS ≤ -(mtDet ray tri) := by linarith
          _ ≤ |mtDet ray tri| := neg_le_abs _
    exact ⟨hdet, h2.1, h2.2, h3.1, by linarith [h2.1, h3.2], h3.2, h4.1, h4.2⟩
  · -- t out of (eps, t_far): miss
    push_neg at h4
    refine ⟨⟨fun hc => by simp at hc, fun hc => ?_⟩,
      fun hc => by simp at hc, fun _ => rfl⟩
    exfalso
    have := h4 hc.2.2.2.2.2.2.1
    linarith [hc.2.2.2.2.2.2.2]

/-- C1 witness: the claim's equivalence, hit update and miss clause at a
concrete ray and triangle. -/
theorem claim_C1_witness :
    ((ray_triangle_intersect (⟨⟨0, 0, 0⟩, ⟨0, 0, 1⟩, ⟨0, 0, 1⟩, 0, 1000, 0, -1, 0⟩ : Ray)
        (⟨⟨0, 0, 1⟩, ⟨4, 0, 1⟩, ⟨0, 4, 1⟩, ⟨4/3, 4/3, 1⟩, default, 7⟩ : Triangle)).1 = true ↔
      (DETERMINANT_EPS ≤ |mtDet ⟨⟨0, 0, 0⟩, ⟨0, 0, 1⟩, ⟨0, 0, 1⟩, 0, 1000, 0, -1, 0⟩
          ⟨⟨0, 0, 1⟩, ⟨4, 0, 1⟩, ⟨0, 4, 1⟩, ⟨4/3, 4/3, 1⟩, default, 7⟩| ∧
       0 ≤ mtU ⟨⟨0, 0, 0⟩, ⟨0, 0, 1⟩, ⟨0, 0, 1⟩, 0, 1000, 0, -1, 0⟩
          ⟨⟨0, 0, 1⟩, ⟨4, 0, 1⟩, ⟨0, 4, 1⟩, ⟨4/3, 4/3, 1⟩, default, 7⟩ ∧
       mtU ⟨⟨0, 0, 0⟩, ⟨0, 0, 1⟩, ⟨0, 0, 1⟩, 0, 1000, 0, -1, 0⟩
          ⟨⟨0, 0, 1⟩, ⟨4, 0, 1⟩, ⟨0, 4, 1⟩, ⟨4/3, 4/3, 1⟩, default, 7⟩ ≤ 1 ∧
       0 ≤ mtV ⟨⟨0, 0, 0⟩, ⟨0, 0, 1⟩, ⟨0, 0, 1⟩, 0, 1000, 0, -1, 0⟩
          ⟨⟨0, 0, 1⟩, ⟨4, 0, 1⟩, ⟨0, 4, 1⟩, ⟨4/3, 4/3, 1⟩, default, 7⟩ ∧
       mtV ⟨⟨0, 0, 0⟩, ⟨0, 0, 1⟩, ⟨0, 0, 1⟩, 0, 1000, 0, -1, 0⟩
          ⟨⟨0, 0, 1⟩, ⟨4, 0, 1⟩, ⟨0, 4, 1⟩, ⟨4/3, 4/3, 1⟩, default, 7⟩ ≤ 1 ∧
       mtU ⟨⟨0, 0, 0⟩, ⟨0, 0, 1⟩, ⟨0, 0, 1⟩, 0, 1000, 0, -1, 0⟩
          ⟨⟨0, 0, 1⟩, ⟨4, 0, 1⟩, ⟨0, 4, 1⟩, ⟨4/3, 4/3, 1⟩, default, 7⟩ +
        mtV ⟨⟨0, 0, 0⟩, ⟨0, 0, 1⟩, ⟨0, 0, 1⟩, 0, 1000, 0, -1, 0⟩
          ⟨⟨0, 0, 1⟩, ⟨4, 0, 1⟩, ⟨0, 4, 1⟩, ⟨4/3, 4/3, 1⟩, default, 7⟩ ≤ 1 ∧
       DETERMINANT_EPS < mtDist ⟨⟨0, 0, 0⟩, ⟨0, 0, 1⟩, ⟨0, 0, 1⟩, 0, 1000, 0, -1, 0⟩
          ⟨⟨0, 0, 1⟩, ⟨4, 0, 1⟩, ⟨0, 4, 1⟩, ⟨4/3, 4/3, 1⟩, default, 7⟩ ∧
       mtDist ⟨⟨0, 0, 0⟩, ⟨0, 0, 1⟩, ⟨0, 0, 1⟩, 0, 1000, 0, -1, 0⟩
          ⟨⟨0, 0, 1⟩, ⟨4, 0, 1⟩, ⟨0, 4, 1⟩, ⟨4/3, 4/3, 1⟩, default, 7⟩ < 1000)) ∧
    ((ray_triangle_intersect (⟨⟨0, 0, 0⟩, ⟨0, 0, 1⟩, ⟨0, 0, 1⟩, 0, 1000, 0, -1, 0⟩ : Ray)
        ⟨⟨0, 0, 1⟩, ⟨4, 0, 1⟩, ⟨0, 4, 1⟩, ⟨4/3, 4/3, 1⟩, default, 7⟩).1 = true →
      (ray_triangle_intersect (⟨⟨0, 0, 0⟩, ⟨0, 0, 1⟩, ⟨0, 0, 1⟩, 0, 1000, 0, -1, 0⟩ : Ray)
        ⟨⟨0, 0, 1⟩, ⟨4, 0, 1⟩, ⟨0, 4, 1⟩, ⟨4/3, 4/3, 1⟩, default, 7⟩).2 =
        { (⟨⟨0, 0, 0⟩, ⟨0, 0, 1⟩, ⟨0, 0, 1⟩, 0, 1000, 0, -1, 0⟩ : Ray) with
            t_far := mtDist ⟨⟨0, 0, 0⟩, ⟨0, 0, 1⟩, ⟨0, 0, 1⟩, 0, 1000, 0, -1, 0⟩
              ⟨⟨0, 0, 1⟩, ⟨4, 0, 1⟩, ⟨0, 4, 1⟩, ⟨4/3, 4/3, 1⟩, default, 7⟩,
            elem_id := 7 }) ∧
    ((ray_triangle_intersect (⟨⟨0, 0, 0⟩, ⟨0, 0, 1⟩, ⟨0, 0, 1⟩, 0, 1000, 0, -1, 0⟩ : Ray)
        ⟨⟨0, 0, 1⟩, ⟨4, 0, 1⟩, ⟨0, 4, 1⟩, ⟨4/3, 4/3, 1⟩, default, 7⟩).1 = false →
      (ray_triangle_intersect (⟨⟨0, 0, 0⟩, ⟨0, 0, 1⟩, ⟨0, 0, 1⟩, 0, 1000, 0, -1, 0⟩ : Ray)
        ⟨⟨0, 0, 1⟩, ⟨4, 0, 1⟩, ⟨0, 4, 1⟩, ⟨4/3, 4/3, 1⟩, default, 7⟩).2 =
        ⟨⟨0, 0, 0⟩, ⟨0, 0, 1⟩, ⟨0, 0, 1⟩, 0, 1000, 0, -1, 0⟩) :=
  claim_C1_ray_triangle_hit_iff
    ⟨⟨0, 0, 0⟩, ⟨0, 0, 1⟩, ⟨0, 0, 1⟩, 0, 1000, 0, -1, 0⟩
    ⟨⟨0, 0, 1⟩, ⟨4, 0, 1⟩, ⟨0, 4, 1⟩, ⟨4/3, 4/3, 1⟩, default, 7⟩

/-- C2 counter-evidence: on the range `[0, 2)` with `ax = 0` and
`split = 1`, over triangles with centroids `0` and `2`, `_partition`
returns `mid = 1` with the array reordered to `[centroid 2, centroid 0]`:
the triangle kept in `[begin, mid)` has centroid strictly GREATER than
the split and the one in `[mid, end)` has centroid ≤ split — the opposite
of the claimed (and comment-documented) orientation. -/
theorem claim_C2_partition_greater_goes_left :
    (bvhPartition [triCx 0, triCx 2] 0 2 0 1).2 = 1 ∧
      (bvhPartition [triCx 0, triCx 2] 0 2 0 1).1 = [triCx 2, triCx 0] ∧
      (triCx 2).centroid.nth 0 > 1 ∧ ¬ (triCx 2).centroid.nth 0 ≤ 1 ∧
      (triCx 0).centroid.nth 0 ≤ 1 := by
  have heval : bvhPartition [triCx 0, triCx 2] 0 2 0 1 = ([triCx 2, triCx 0], 1) := by
    unfold bvhPartition
    rw [partitionLoop]
    norm_num [triCx, Vec3.nth, List.getD]
    rw [partitionLoop]
    norm_num [triCx, Vec3.nth, List.getD, listSwap]
    rw [partitionLoop]
    norm_num [triCx, Vec3.nth, List.getD]
  refine ⟨by rw [heval], by rw [heval], ?_, ?_, ?_⟩ <;> norm_num [triCx, Vec3.nth]

/-- C3 counter-evidence: on a node box with per-axis extents `(1, 3, 2)`
the split-axis choice of `_recursive_build` returns axis 2 even though
axis 1's extent is strictly greatest (the code never updates `d` after
testing axis 1). -/
theorem claim_C3_axis_not_greatest_extent :
    longestAxis ⟨⟨0, 0, 0⟩, ⟨1, 3, 2⟩⟩ = 2 ∧
      |Vec3.nth ⟨1, 3, 2⟩ 0 - Vec3.nth ⟨0, 0, 0⟩ 0| <
        |Vec3.nth ⟨1, 3, 2⟩ 1 - Vec3.nth ⟨0, 0, 0⟩ 1| ∧
      |Vec3.nth ⟨1, 3, 2⟩ 2 - Vec3.nth ⟨0, 0, 0⟩ 2| <
        |Vec3.nth ⟨1, 3, 2⟩ 1 - Vec3.nth ⟨0, 0, 0⟩ 1| := by
  norm_num [longestAxis, Vec3.nth]

/-- C4 counter-evidence: the `__cinit__` topology dispatch has no error
branch.  For the unsupported vertex count 5 it raises nothing: the
triangles-per-element count stays at its zero-initialised value and no
sampler is selected, while the three supported counts select the
hexahedron, wedge and tetrahedron configurations as claimed. -/
theorem claim_C4_no_topology_error :
    cinitNumTriPerElem 5 = 0 ∧ cinitSampler 5 = none ∧
      cinitNumTriPerElem 8 = HEX_NT ∧ cinitSampler 8 = some .Q1Sampler ∧
      cinitNumTriPerElem 6 = WEDGE_NT ∧ cinitSampler 6 = some .W1Sampler ∧
      cinitNumTriPerElem 4 = TETRA_NT ∧ cinitSampler 4 = some .P1Sampler := by
  decide

/-- C5: in every tree built by `_recursive_build` over a non-empty
triangle array, every internal node's children exactly partition its
range: `left.begin == node.begin`, `left.end == right.begin` and
`right.end == node.end`, with no gaps or overlaps. -/
theorem claim_C5_tree_partition_invariant (tris : List Triangle)
    (_hne : tris ≠ []) :
    wellPartitionedRanges ((recursiveBuild tris 0 tris.length).2) = true :=
  recursiveBuild_wellPartitioned tris 0 tris.length

/-- C5 witness: the partition invariant on the tree built over a concrete
one-triangle array. -/
theorem claim_C5_witness :
    ([triCx 0] : List Triangle) ≠ [] ∧
      wellPartitionedRanges ((recursiveBuild [triCx 0] 0 [triCx 0].length).2) = true :=
  ⟨by simp, claim_C5_tree_partition_invariant [triCx 0] (by simp)⟩

/-- C6: the slab test computes per-axis entry/exit distances from the
ray's reciprocal direction, intersects the three axis intervals into
`[tmin, tmax]`, and reports a hit iff that interval is non-empty and
`tmax ≥ 0`. -/
theorem claim_C6_slab_test_iff (ray : Ray) (bbox : BBox) :
    ray_bbox_intersect ray bbox = true ↔
      (slabTmin ray bbox ≤ slabTmax ray bbox ∧ 0 ≤ slabTmax ray bbox) := by
  unfold ray_bbox_intersect
  rw [decide_eq_true_iff]
  exact ⟨fun h => ⟨le_trans (le_max_left _ _) h, le_trans (le_max_right _ _) h⟩,
    fun h => max_le h.1 h.2⟩

/-- C7: for every range that `_recursive_build` treats as internal
(`end - begin > LEAF_SIZE`), the chosen `mid` — after the forced even
split when the partition returned an empty side — lies strictly between
`begin` and `end`, so both child ranges are non-empty and strictly
smaller than the parent's, bounding the recursion; and whenever the raw
partition boundary equals `begin` or `end`, `mid` is exactly
`begin + (end - begin)/2`. -/
theorem claim_C7_build_progress (tris : List Triangle) (b e : ℕ)
    (h : LEAF_SIZE < e - b) :
    b < (partitionStep tris b e).2 ∧ (partitionStep tris b e).2 < e ∧
      (partitionStep tris b e).2 - b < e - b ∧
      e - (partitionStep tris b e).2 < e - b ∧
      (((bvhPartition tris b e (longestAxis (getNodeBbox tris b e))
          (splitValueOf (getNodeBbox tris b e) (longestAxis (getNodeBbox tris b e)))).2 = b ∨
        (bvhPartition tris b e (longestAxis (getNodeBbox tris b e))
          (splitValueOf (getNodeBbox tris b e) (longestAxis (getNodeBbox tris b e)))).2 = e) →
        (partitionStep tris b e).2 = b + (e - b) / 2) := by
  have hb := partitionStep_mid_bounds tris b e h
  refine ⟨hb.1, hb.2, by omega, by omega, fun hc => ?_⟩
  simp only [partitionStep]
  rw [if_pos hc]

/-- C7 witness: the progress bounds at a concrete 17-triangle range
(17 identical centroids force the degenerate-partition midpoint split). -/
theorem claim_C7_witness :
    LEAF_SIZE < 17 - 0 ∧
      (0 < (partitionStep (List.replicate 17 (triCx 0)) 0 17).2 ∧
       (partitionStep (List.replicate 17 (triCx 0)) 0 17).2 < 17) :=
  ⟨by decide,
    (claim_C7_build_progress (List.replicate 17 (triCx 0)) 0 17 (by decide)).1,
    (claim_C7_build_progress (List.replicate 17 (triCx 0)) 0 17 (by decide)).2.1⟩

/-- C8: `LEAF_SIZE` is fixed at 16 and, in every tree `_recursive_build`
produces, a node is a leaf iff its range size is `≤ LEAF_SIZE` (so in
particular every leaf holds at most `LEAF_SIZE` triangles, including the
root-is-leaf case of a small input). -/
theorem claim_C8_leaf_iff_small :
    LEAF_SIZE = 16 ∧
      ∀ (tris : List Triangle) (b e : ℕ),
        leafSizeInv ((recursiveBuild tris b e).2) = true :=
  ⟨rfl, recursiveBuild_leafSizeInv⟩

/-- C9: when the recursive walk records no intersection (`elem_id` still
the sentinel `-1`), `BVH.intersect` returns without invoking the sampler
(its result is the sampler-free traversal result) and without modifying
`data_val`, so the driver writes the initialised sentinel value 0 to the
output slot for that ray. -/
theorem claim_C9_miss_no_sampler (tris : List Triangle) (root : BVHNode)
    (sampler : ℤ → Vec3 → ℚ) (origin direction : Vec3) (inf : ℚ)
    (h : (recursiveIntersect tris root (initRay origin direction inf)).elem_id = -1) :
    bvhIntersect tris root sampler (initRay origin direction inf) =
        recursiveIntersect tris root (initRay origin direction inf) ∧
      (bvhIntersect tris root sampler (initRay origin direction inf)).data_val = 0 ∧
      castRay tris root sampler origin direction inf = 0 := by
  have hret : bvhIntersect tris root sampler (initRay origin direction inf) =
      recursiveIntersect tris root (initRay origin direction inf) := by
    unfold bvhIntersect
    dsimp only
    rw [if_pos (show (recursiveIntersect tris root (initRay origin direction inf)).elem_id < 0
      by rw [h]; decide)]
  have hdv : (recursiveIntersect tris root (initRay origin direction inf)).data_val = 0 := by
    rw [recursiveIntersect_data_val]
    rfl
  exact ⟨hret, by rw [hret, hdv], by unfold castRay; rw [hret, hdv]⟩

/-- C9 witness: a concrete ray over an empty leaf records no hit, and the
driver's output value for it is the sentinel 0, for an arbitrary concrete
sampler (the constant 37). -/
theorem claim_C9_witness :
    (recursiveIntersect [] (.leaf 0 0 default)
        (initRay ⟨0, 0, 0⟩ ⟨1, 0, 0⟩ 5)).elem_id = -1 ∧
      castRay [] (.leaf 0 0 default) (fun _ _ => 37) ⟨0, 0, 0⟩ ⟨1, 0, 0⟩ 5 = 0 := by
  have h : (recursiveIntersect [] (.leaf 0 0 default)
      (initRay ⟨0, 0, 0⟩ ⟨1, 0, 0⟩ 5)).elem_id = -1 := by
    norm_num [recursiveIntersect, leafScan, initRay, ray_bbox_intersect,
      slabTmin, slabTmax, slabT1, slabT2, Vec3.nth]
  exact ⟨h, (claim_C9_miss_no_sampler [] (.leaf 0 0 default) (fun _ _ => 37)
    ⟨0, 0, 0⟩ ⟨1, 0, 0⟩ 5 h).2.2⟩

/-- C10: `_get_node_bbox` reads index `begin` unconditionally, so its
out-of-bounds condition is avoided exactly under `begin < end ≤ num_tri`:
over an empty triangle array the root call's empty range `[0, 0)` is an
out-of-bounds access, while for a non-empty array every range the builder
creates (hence every range `_get_node_bbox` is called on) is non-empty
and within bounds. -/
theorem claim_C10_get_node_bbox_bounds :
    getNodeBboxChecked ([] : List Triangle) 0 0 = none ∧
      (∀ (tris : List Triangle) (b e : ℕ), b < e → e ≤ tris.length →
        getNodeBboxChecked tris b e = some (getNodeBbox tris b e)) ∧
      (∀ tris : List Triangle, 1 ≤ tris.length →
        ∀ p ∈ treeRanges ((recursiveBuild tris 0 tris.length).2),
          p.1 < p.2 ∧ p.2 ≤ tris.length) := by
  refine ⟨?_, ?_, ?_⟩
  · simp [getNodeBboxChecked]
  · intro tris b e h1 h2
    unfold getNodeBboxChecked
    rw [if_pos ⟨by omega, h2⟩]
  · intro tris h p hp
    have := recursiveBuild_ranges_bounds tris 0 tris.length (by omega) p hp
    omega

/-- C10 witness: the empty-range out-of-bounds case, the in-bounds case
on a one-triangle array, and the range bounds of the tree built over it. -/
theorem claim_C10_witness :
    getNodeBboxChecked ([] : List Triangle) 0 0 = none ∧
      getNodeBboxChecked [triCx 0] 0 1 = some (getNodeBbox [triCx 0] 0 1) ∧
      (∀ p ∈ treeRanges ((recursiveBuild [triCx 0] 0 [triCx 0].length).2),
        p.1 < p.2 ∧ p.2 ≤ [triCx 0].length) :=
  ⟨claim_C10_get_node_bbox_bounds.1,
    claim_C10_get_node_bbox_bounds.2.1 [triCx 0] 0 1 (by decide) (by decide),
    claim_C10_get_node_bbox_bounds.2.2 [triCx 0] (by decide)⟩
